import Mathlib

/-!
Verification of the smcHash kernel (Rust source `src/rust/src/lib.rs`).

The embedding is shallow: 64-bit machine words become `Nat` with explicit
reduction modulo `2^64` where the Rust semantics wraps, byte buffers become
`List Nat` (each byte read reduced modulo 256, matching `u8`), and every
slice access that can panic in Rust is modelled as an `Option`-valued read,
so that an out-of-bounds access becomes `none` and in-bounds execution is
`some`.  Definitions are transcribed from the source; a second family of
definitions (`shortHashSpec`, `longHashSpec`, `bulkSpec`) transcribes the
natural-language algorithm of the specification (§4.2–§4.3) for the
refinement claims.
-/

namespace SmcHash

/-- `2^64`, the modulus of 64-bit machine arithmetic. -/
def M : Nat := 18446744073709551616

/-- The built-in secret table `SMC_SECRET` (lib.rs lines 73–83). -/
def SMC_SECRET : Fin 9 → Nat :=
  ![0x9ad1e8e2aa5a5c4b,
    0xaaaad2335647d21b,
    0xb8ac35e269d1b495,
    0xa98d653cb2b4c959,
    0x71a5b853b43ca68b,
    0x2b55934dc35c9655,
    0x746ae48ed4d41e4d,
    0xa3d8c38e78aaa6a9,
    0x1bca69c565658bc3]

/-- `mix` (lib.rs lines 87–90): full 128-bit product of two 64-bit words,
high half XOR-folded into the low half.  Arguments are reduced modulo `2^64`
to embed the `u64` argument type. -/
def mix (a b : Nat) : Nat :=
  let r := (a % M) * (b % M)
  (r % M) ^^^ (r / M)

/-- `mum` (lib.rs lines 94–98): like `mix` but also returns the raw high
half as the second component. -/
def mum (a b : Nat) : Nat × Nat :=
  let r := (a % M) * (b % M)
  ((r % M) ^^^ (r / M), r / M)

/-- `read64` (lib.rs lines 102–104) applied to the slice `p[off..]`:
little-endian 64-bit read.  `none` exactly when the Rust code would panic
(fewer than 8 bytes available at `off`). -/
def read64 (p : List Nat) (off : Nat) : Option Nat := do
  let b0 ← p[off]?
  let b1 ← p[off + 1]?
  let b2 ← p[off + 2]?
  let b3 ← p[off + 3]?
  let b4 ← p[off + 4]?
  let b5 ← p[off + 5]?
  let b6 ← p[off + 6]?
  let b7 ← p[off + 7]?
  some (b0 % 256 + (b1 % 256) * 2 ^ 8 + (b2 % 256) * 2 ^ 16 + (b3 % 256) * 2 ^ 24 +
    (b4 % 256) * 2 ^ 32 + (b5 % 256) * 2 ^ 40 + (b6 % 256) * 2 ^ 48 + (b7 % 256) * 2 ^ 56)

/-- `read32` (lib.rs lines 108–110) applied to `p[off..]`, zero-extended to
64 bits as at its call sites (`as u64`). -/
def read32 (p : List Nat) (off : Nat) : Option Nat := do
  let b0 ← p[off]?
  let b1 ← p[off + 1]?
  let b2 ← p[off + 2]?
  let b3 ← p[off + 3]?
  some (b0 % 256 + (b1 % 256) * 2 ^ 8 + (b2 % 256) * 2 ^ 16 + (b3 % 256) * 2 ^ 24)

/-- `smc_rand` (lib.rs lines 390–393).  The `&mut u64` state is passed and
returned explicitly: the result is `(new state, output)`. -/
def smc_rand (seed : Nat) : Nat × Nat :=
  let s := (seed + SMC_SECRET 0) % M
  (s, mix s (s ^^^ SMC_SECRET 1))

/-- Four consecutive little-endian 64-bit reads at offsets `off`, `off+8`,
`off+16`, `off+24`; `none` exactly when any of them is out of bounds. -/
def readQuad (p : List Nat) (off : Nat) : Option (Nat × Nat × Nat × Nat) := do
  let a ← read64 p off
  let b ← read64 p (off + 8)
  let c ← read64 p (off + 16)
  let d ← read64 p (off + 24)
  pure (a, b, c, d)

/-- The sixteen 64-bit words one iteration of the bulk loop reads from the
current 128-byte block: `xk`/`yk` are the reads at offsets `16k` and
`16k + 8` (lib.rs lines 193–200 and 317–324). -/
structure Block where
  x0 : Nat
  y0 : Nat
  x1 : Nat
  y1 : Nat
  x2 : Nat
  y2 : Nat
  x3 : Nat
  y3 : Nat
  x4 : Nat
  y4 : Nat
  x5 : Nat
  y5 : Nat
  x6 : Nat
  y6 : Nat
  x7 : Nat
  y7 : Nat

/-- All sixteen reads of one bulk iteration, in source order. -/
def readBlock (p : List Nat) : Option Block := do
  let q0 ← readQuad p 0
  let q1 ← readQuad p 32
  let q2 ← readQuad p 64
  let q3 ← readQuad p 96
  pure ⟨q0.1, q0.2.1, q0.2.2.1, q0.2.2.2, q1.1, q1.2.1, q1.2.2.1, q1.2.2.2,
    q2.1, q2.2.1, q2.2.2.1, q2.2.2.2, q3.1, q3.2.1, q3.2.2.1, q3.2.2.2⟩

/-- State after the bulk loop: remaining pointer `p`, remaining length `i`,
accumulator `seed` (lane 0) and the seven auxiliary lanes. -/
structure BulkState where
  p : List Nat
  i : Nat
  seed : Nat
  see1 : Nat
  see2 : Nat
  see3 : Nat
  see4 : Nat
  see5 : Nat
  see6 : Nat
  see7 : Nat

/-- The `while i > 128` bulk loop of `smchash_secret`
(lib.rs lines 316–327): each iteration consumes 128 bytes through the 8
lanes and advances the pointer. -/
def bulkSecret (secret : Fin 9 → Nat) (p : List Nat) (i : Nat)
    (seed see1 see2 see3 see4 see5 see6 see7 : Nat) : Option BulkState :=
  if _h : 128 < i then
    match readBlock p with
    | none => none
    | some w =>
      bulkSecret secret (p.drop 128) (i - 128)
        (mix (w.x0 ^^^ secret 0) (w.y0 ^^^ seed))
        (mix (w.x1 ^^^ secret 1) (w.y1 ^^^ see1))
        (mix (w.x2 ^^^ secret 2) (w.y2 ^^^ see2))
        (mix (w.x3 ^^^ secret 3) (w.y3 ^^^ see3))
        (mix (w.x4 ^^^ secret 4) (w.y4 ^^^ see4))
        (mix (w.x5 ^^^ secret 5) (w.y5 ^^^ see5))
        (mix (w.x6 ^^^ secret 6) (w.y6 ^^^ see6))
        (mix (w.x7 ^^^ secret 7) (w.y7 ^^^ see7))
  else
    some ⟨p, i, seed, see1, see2, see3, see4, see5, see6, see7⟩
termination_by i
decreasing_by simp_wf; omega

/-- The `while i > 128` bulk loop of `smchash_seeded`
(lib.rs lines 192–203), duplicated from the secret variant exactly as the
source duplicates it, with the built-in table in place of the parameter. -/
def bulkSeeded (p : List Nat) (i : Nat)
    (seed see1 see2 see3 see4 see5 see6 see7 : Nat) : Option BulkState :=
  if _h : 128 < i then
    match readBlock p with
    | none => none
    | some w =>
      bulkSeeded (p.drop 128) (i - 128)
        (mix (w.x0 ^^^ SMC_SECRET 0) (w.y0 ^^^ seed))
        (mix (w.x1 ^^^ SMC_SECRET 1) (w.y1 ^^^ see1))
        (mix (w.x2 ^^^ SMC_SECRET 2) (w.y2 ^^^ see2))
        (mix (w.x3 ^^^ SMC_SECRET 3) (w.y3 ^^^ see3))
        (mix (w.x4 ^^^ SMC_SECRET 4) (w.y4 ^^^ see4))
        (mix (w.x5 ^^^ SMC_SECRET 5) (w.y5 ^^^ see5))
        (mix (w.x6 ^^^ SMC_SECRET 6) (w.y6 ^^^ see6))
        (mix (w.x7 ^^^ SMC_SECRET 7) (w.y7 ^^^ see7))
  else
    some ⟨p, i, seed, see1, see2, see3, see4, see5, see6, see7⟩
termination_by i
decreasing_by simp_wf; omega

/-- The `i > 64` residual branch, shared verbatim by the two variants in
the source (lib.rs lines 210–217 and 334–341): four lane steps with
constants `secret[0..3]`, then the pointer advances by 64 bytes.  Returns
the new `(p, i, seed)`. -/
def residual64 (secret : Fin 9 → Nat) (p : List Nat) (i s : Nat) :
    Option (List Nat × Nat × Nat) :=
  if 64 < i then do
    let (x0, y0, x1, y1) ← readQuad p 0
    let (x2, y2, x3, y3) ← readQuad p 32
    let s := mix (x0 ^^^ secret 0) (y0 ^^^ s)
    let s := mix (x1 ^^^ secret 1) (y1 ^^^ s)
    let s := mix (x2 ^^^ secret 2) (y2 ^^^ s)
    let s := mix (x3 ^^^ secret 3) (y3 ^^^ s)
    pure (p.drop 64, i - 64, s)
  else
    pure (p, i, s)

/-- The `i > 32` residual branch (lib.rs lines 218–223 and 342–347): two
lane steps with `secret[0..1]`, then the pointer advances by 32 bytes. -/
def residual32 (secret : Fin 9 → Nat) (p : List Nat) (i s : Nat) :
    Option (List Nat × Nat × Nat) :=
  if 32 < i then do
    let (x0, y0, x1, y1) ← readQuad p 0
    let s := mix (x0 ^^^ secret 0) (y0 ^^^ s)
    let s := mix (x1 ^^^ secret 1) (y1 ^^^ s)
    pure (p.drop 32, i - 32, s)
  else
    pure (p, i, s)

/-- The `i > 16` residual branch (lib.rs lines 224–226 and 348–350): one
lane step with `secret[0]`; the pointer does NOT advance. -/
def residual16 (secret : Fin 9 → Nat) (p : List Nat) (i s : Nat) : Option Nat :=
  if 16 < i then do
    let x ← read64 p 0
    let y ← read64 p 8
    pure (mix (x ^^^ secret 0) (y ^^^ s))
  else
    pure s

/-- Long-input path of `smchash_secret` after the seed update of
lib.rs line 304 (lib.rs lines 305–358); `s0` is the already-updated seed. -/
def longSecret (secret : Fin 9 → Nat) (data : List Nat) (s0 : Nat) : Option Nat := do
  let len := data.length
  let (p1, i1, s1) ←
    if 128 < len then
      match bulkSecret secret data len s0 s0 s0 s0 s0 s0 s0 s0 with
      | none => none
      | some r =>
        some (r.p, r.i,
          (r.seed ^^^ (r.see1 ^^^ r.see4 ^^^ r.see5)) ^^^
            (r.see2 ^^^ (r.see3 ^^^ r.see6 ^^^ r.see7)))
    else
      pure (data, len, s0)
  let (p2, i2, s2) ← residual64 secret p1 i1 s1
  let (p3, i3, s3) ← residual32 secret p2 i2 s2
  let s4 ← residual16 secret p3 i3 s3
  let a ← read64 data (len - 16)
  let b ← read64 data (len - 8)
  let a := (a ^^^ len) ^^^ secret 1
  let b := b ^^^ s4
  let m := mum a b
  pure (mix (m.1 ^^^ secret 8) (m.2 ^^^ secret 1 ^^^ len))

/-- `smchash_secret` (lib.rs lines 273–359).  Note that the long-path seed
update of line 304 reads `secret[0]`, unlike line 179 of the seeded variant
which reads `SMC_SECRET[2]`. -/
def smchash_secret (data : List Nat) (seed : Nat) (secret : Fin 9 → Nat) : Option Nat :=
  let len := data.length
  if len ≤ 16 then do
    let s := seed ^^^ mix (seed ^^^ secret 0) (secret 1 ^^^ len)
    let (a, b) ←
      if 4 ≤ len then
        if 8 ≤ len then do
          let a ← read64 data 0
          let b ← read64 data (len - 8)
          pure (a, b)
        else do
          let a ← read32 data 0
          let b ← read32 data (len - 4)
          pure (a, b)
      else if 0 < len then do
        let b0 ← data[0]?
        let bm ← data[len >>> 1]?
        let bl ← data[len - 1]?
        pure (((b0 % 256) <<< 56 ||| (bm % 256) <<< 32 ||| (bl % 256) : Nat), (0 : Nat))
      else
        pure (0, 0)
    let a := a ^^^ secret 1
    let b := b ^^^ s
    let m := mum a b
    pure (mix (m.1 ^^^ secret 8) (m.2 ^^^ secret 1 ^^^ len))
  else
    longSecret secret data (seed ^^^ mix (seed ^^^ secret 0) (secret 1))

/-- Long-input path of `smchash_seeded` after the seed update of
lib.rs line 179 (lib.rs lines 180–234), duplicated from the secret variant
exactly as the source duplicates it. -/
def longSeeded (data : List Nat) (s0 : Nat) : Option Nat := do
  let len := data.length
  let (p1, i1, s1) ←
    if 128 < len then
      match bulkSeeded data len s0 s0 s0 s0 s0 s0 s0 s0 with
      | none => none
      | some r =>
        some (r.p, r.i,
          (r.seed ^^^ (r.see1 ^^^ r.see4 ^^^ r.see5)) ^^^
            (r.see2 ^^^ (r.see3 ^^^ r.see6 ^^^ r.see7)))
    else
      pure (data, len, s0)
  let (p2, i2, s2) ← residual64 SMC_SECRET p1 i1 s1
  let (p3, i3, s3) ← residual32 SMC_SECRET p2 i2 s2
  let s4 ← residual16 SMC_SECRET p3 i3 s3
  let a ← read64 data (len - 16)
  let b ← read64 data (len - 8)
  let a := (a ^^^ len) ^^^ SMC_SECRET 1
  let b := b ^^^ s4
  let m := mum a b
  pure (mix (m.1 ^^^ SMC_SECRET 8) (m.2 ^^^ SMC_SECRET 1 ^^^ len))

/-- `smchash_seeded` (lib.rs lines 148–235). -/
def smchash_seeded (data : List Nat) (seed : Nat) : Option Nat :=
  let len := data.length
  if len ≤ 16 then do
    let s := seed ^^^ mix (seed ^^^ SMC_SECRET 0) (SMC_SECRET 1 ^^^ len)
    let (a, b) ←
      if 4 ≤ len then
        if 8 ≤ len then do
          let a ← read64 data 0
          let b ← read64 data (len - 8)
          pure (a, b)
        else do
          let a ← read32 data 0
          let b ← read32 data (len - 4)
          pure (a, b)
      else if 0 < len then do
        let b0 ← data[0]?
        let bm ← data[len >>> 1]?
        let bl ← data[len - 1]?
        pure (((b0 % 256) <<< 56 ||| (bm % 256) <<< 32 ||| (bl % 256) : Nat), (0 : Nat))
      else
        pure (0, 0)
    let a := a ^^^ SMC_SECRET 1
    let b := b ^^^ s
    let m := mum a b
    pure (mix (m.1 ^^^ SMC_SECRET 8) (m.2 ^^^ SMC_SECRET 1 ^^^ len))
  else
    longSeeded data (seed ^^^ mix (seed ^^^ SMC_SECRET 2) (SMC_SECRET 1))

/-- `smchash` (lib.rs lines 130–132): the default seed is `SMC_SECRET[0]`. -/
def smchash (data : List Nat) : Option Nat :=
  smchash_seeded data (SMC_SECRET 0)

/-- Specification §4.2, transcribed from the spec text (not from the
source) for the refinement claims: the short-input path for `L ≤ 16` with
active secret table `S`, with the four length classes stated as in the
spec (`L ≥ 8`, `4 ≤ L < 8`, `1 ≤ L < 4`, `L = 0`). -/
def shortHashSpec (S : Fin 9 → Nat) (data : List Nat) (seed : Nat) : Option Nat := do
  let L := data.length
  let s := seed ^^^ mix (seed ^^^ S 0) (S 1 ^^^ L)
  let (a, b) ←
    if 8 ≤ L then do
      let a ← read64 data 0
      let b ← read64 data (L - 8)
      pure (a, b)
    else if 4 ≤ L ∧ L < 8 then do
      let a ← read32 data 0
      let b ← read32 data (L - 4)
      pure (a, b)
    else if 1 ≤ L ∧ L < 4 then do
      let b0 ← data[0]?
      let bm ← data[L >>> 1]?
      let bl ← data[L - 1]?
      pure (((b0 % 256) <<< 56 ||| (bm % 256) <<< 32 ||| (bl % 256) : Nat), (0 : Nat))
    else
      pure (0, 0)
  let a := a ^^^ S 1
  let b := b ^^^ s
  let m := mum a b
  pure (mix (m.1 ^^^ S 8) (m.2 ^^^ S 1 ^^^ L))

/-- Specification §4.3 step 2, transcribed from the spec text: while the
remaining length `i` is strictly greater than 128, lane `k` (lane 0 being
`s`) is updated with the reads at offsets `16k` and `16k + 8` and the
constant `S[k]`, and the pointer advances by 128 bytes. -/
def bulkSpec (S : Fin 9 → Nat) (p : List Nat) (i : Nat)
    (s see1 see2 see3 see4 see5 see6 see7 : Nat) : Option BulkState :=
  if _h : 128 < i then
    match readBlock p with
    | none => none
    | some w =>
      bulkSpec S (p.drop 128) (i - 128)
        (mix (w.x0 ^^^ S 0) (w.y0 ^^^ s))
        (mix (w.x1 ^^^ S 1) (w.y1 ^^^ see1))
        (mix (w.x2 ^^^ S 2) (w.y2 ^^^ see2))
        (mix (w.x3 ^^^ S 3) (w.y3 ^^^ see3))
        (mix (w.x4 ^^^ S 4) (w.y4 ^^^ see4))
        (mix (w.x5 ^^^ S 5) (w.y5 ^^^ see5))
        (mix (w.x6 ^^^ S 6) (w.y6 ^^^ see6))
        (mix (w.x7 ^^^ S 7) (w.y7 ^^^ see7))
  else
    some ⟨p, i, s, see1, see2, see3, see4, see5, see6, see7⟩
termination_by i
decreasing_by simp_wf; omega

/-- Specification §4.3 step 3, first threshold, transcribed from the spec
text: if `i > 64`, consume 64 bytes through four lane steps with
`S[0..3]`, advance the pointer by 64 and decrease `i` by 64. -/
def residual64Spec (S : Fin 9 → Nat) (p : List Nat) (i s : Nat) :
    Option (List Nat × Nat × Nat) :=
  if 64 < i then do
    let (x0, y0, x1, y1) ← readQuad p 0
    let (x2, y2, x3, y3) ← readQuad p 32
    let s := mix (x0 ^^^ S 0) (y0 ^^^ s)
    let s := mix (x1 ^^^ S 1) (y1 ^^^ s)
    let s := mix (x2 ^^^ S 2) (y2 ^^^ s)
    let s := mix (x3 ^^^ S 3) (y3 ^^^ s)
    pure (p.drop 64, i - 64, s)
  else
    pure (p, i, s)

/-- Specification §4.3 step 3, second threshold: if `i > 32`, consume 32
bytes through two lane steps with `S[0..1]`, advance by 32. -/
def residual32Spec (S : Fin 9 → Nat) (p : List Nat) (i s : Nat) :
    Option (List Nat × Nat × Nat) :=
  if 32 < i then do
    let (x0, y0, x1, y1) ← readQuad p 0
    let s := mix (x0 ^^^ S 0) (y0 ^^^ s)
    let s := mix (x1 ^^^ S 1) (y1 ^^^ s)
    pure (p.drop 32, i - 32, s)
  else
    pure (p, i, s)

/-- Specification §4.3 step 3, third threshold: if `i > 16`, consume 16
bytes with `S[0]`; the pointer does NOT advance. -/
def residual16Spec (S : Fin 9 → Nat) (p : List Nat) (i s : Nat) : Option Nat :=
  if 16 < i then do
    let x ← read64 p 0
    let y ← read64 p 8
    pure (mix (x ^^^ S 0) (y ^^^ s))
  else
    pure s

/-- Specification §4.3, transcribed from the spec text (not from the
source): the long-input path for `L > 16`.  Step 1 updates the seed with
`mix(s XOR S[2], S[1])`; step 2 runs the bulk phase when `L > 128`
(auxiliary lanes initialised to `s`, asymmetric XOR termination fold);
step 3 consumes residuals under strict thresholds `i > 64`, `i > 32`,
`i > 16`, the last without advancing the pointer; step 4 finalises on the
16-byte tail of the original input at offsets `L−16` and `L−8`. -/
def longHashSpec (S : Fin 9 → Nat) (data : List Nat) (seed : Nat) : Option Nat := do
  let L := data.length
  let s0 := seed ^^^ mix (seed ^^^ S 2) (S 1)
  let (p1, i1, s1) ←
    if 128 < L then
      match bulkSpec S data L s0 s0 s0 s0 s0 s0 s0 s0 with
      | none => none
      | some r =>
        some (r.p, r.i,
          (r.seed ^^^ (r.see1 ^^^ r.see4 ^^^ r.see5)) ^^^
            (r.see2 ^^^ (r.see3 ^^^ r.see6 ^^^ r.see7)))
    else
      pure (data, L, s0)
  let (p2, i2, s2) ← residual64Spec S p1 i1 s1
  let (p3, i3, s3) ← residual32Spec S p2 i2 s2
  let s4 ← residual16Spec S p3 i3 s3
  let a ← read64 data (L - 16)
  let b ← read64 data (L - 8)
  let a := (a ^^^ L) ^^^ S 1
  let b := b ^^^ s4
  let m := mum a b
  pure (mix (m.1 ^^^ S 8) (m.2 ^^^ S 1 ^^^ L))

/-!
Helper lemmas.  The two duplicated bulk loops and the spec transcription
of the loop agree pointwise, the long paths of the two source variants
agree (the divergence between the variants lies in the seed update BEFORE
the long path, lib.rs lines 179 vs 304), and the source short path of the
secret variant instantiated with the built-in table is the seeded short
path.
-/

theorem bulkSeeded_eq_bulkSecret (i : Nat) (p : List Nat) (a b c d e f g h : Nat) :
    bulkSeeded p i a b c d e f g h = bulkSecret SMC_SECRET p i a b c d e f g h := by
  induction i using Nat.strong_induction_on generalizing p a b c d e f g h with
  | _ i ih =>
    by_cases hgt : 128 < i
    · rw [bulkSeeded.eq_def, bulkSecret.eq_def, dif_pos hgt, dif_pos hgt]
      cases readBlock p with
      | none => rfl
      | some w => exact ih (i - 128) (by omega) _ _ _ _ _ _ _ _ _
    · rw [bulkSeeded.eq_def, bulkSecret.eq_def, dif_neg hgt, dif_neg hgt]

theorem bulkSpec_eq_bulkSecret (S : Fin 9 → Nat) (i : Nat) (p : List Nat)
    (a b c d e f g h : Nat) :
    bulkSpec S p i a b c d e f g h = bulkSecret S p i a b c d e f g h := by
  induction i using Nat.strong_induction_on generalizing p a b c d e f g h with
  | _ i ih =>
    by_cases hgt : 128 < i
    · rw [bulkSpec.eq_def, bulkSecret.eq_def, dif_pos hgt, dif_pos hgt]
      cases readBlock p with
      | none => rfl
      | some w => exact ih (i - 128) (by omega) _ _ _ _ _ _ _ _ _
    · rw [bulkSpec.eq_def, bulkSecret.eq_def, dif_neg hgt, dif_neg hgt]

theorem residual64Spec_eq (S : Fin 9 → Nat) (p : List Nat) (i s : Nat) :
    residual64Spec S p i s = residual64 S p i s := rfl

theorem residual32Spec_eq (S : Fin 9 → Nat) (p : List Nat) (i s : Nat) :
    residual32Spec S p i s = residual32 S p i s := rfl

theorem residual16Spec_eq (S : Fin 9 → Nat) (p : List Nat) (i s : Nat) :
    residual16Spec S p i s = residual16 S p i s := rfl

theorem longSeeded_eq_longSecret (data : List Nat) (s0 : Nat) :
    longSeeded data s0 = longSecret SMC_SECRET data s0 := by
  unfold longSeeded longSecret
  simp only [bulkSeeded_eq_bulkSecret]

theorem secret_builtin_short_eq (data : List Nat) (seed : Nat)
    (h : data.length ≤ 16) :
    smchash_secret data seed SMC_SECRET = smchash_seeded data seed := by
  unfold smchash_secret smchash_seeded
  rw [if_pos h, if_pos h]

theorem read64_isSome (p : List Nat) (off : Nat) (h : off + 8 ≤ p.length) :
    (read64 p off).isSome := by
  have h0 : off < p.length := by omega
  have h1 : off + 1 < p.length := by omega
  have h2 : off + 2 < p.length := by omega
  have h3 : off + 3 < p.length := by omega
  have h4 : off + 4 < p.length := by omega
  have h5 : off + 5 < p.length := by omega
  have h6 : off + 6 < p.length := by omega
  have h7 : off + 7 < p.length := by omega
  simp [read64, List.getElem?_eq_getElem, h0, h1, h2, h3, h4, h5, h6, h7]

theorem read32_isSome (p : List Nat) (off : Nat) (h : off + 4 ≤ p.length) :
    (read32 p off).isSome := by
  have h0 : off < p.length := by omega
  have h1 : off + 1 < p.length := by omega
  have h2 : off + 2 < p.length := by omega
  have h3 : off + 3 < p.length := by omega
  simp [read32, List.getElem?_eq_getElem, h0, h1, h2, h3]

theorem readQuad_isSome (p : List Nat) (off : Nat) (h : off + 32 ≤ p.length) :
    (readQuad p off).isSome := by
  obtain ⟨a, ha⟩ := Option.isSome_iff_exists.mp (read64_isSome p off (by omega))
  obtain ⟨b, hb⟩ := Option.isSome_iff_exists.mp (read64_isSome p (off + 8) (by omega))
  obtain ⟨c, hc⟩ := Option.isSome_iff_exists.mp (read64_isSome p (off + 16) (by omega))
  obtain ⟨d, hd⟩ := Option.isSome_iff_exists.mp (read64_isSome p (off + 24) (by omega))
  simp [readQuad, ha, hb, hc, hd]

theorem readBlock_isSome (p : List Nat) (h : 128 ≤ p.length) :
    (readBlock p).isSome := by
  obtain ⟨q0, h0⟩ := Option.isSome_iff_exists.mp (readQuad_isSome p 0 (by omega))
  obtain ⟨q1, h1⟩ := Option.isSome_iff_exists.mp (readQuad_isSome p 32 (by omega))
  obtain ⟨q2, h2⟩ := Option.isSome_iff_exists.mp (readQuad_isSome p 64 (by omega))
  obtain ⟨q3, h3⟩ := Option.isSome_iff_exists.mp (readQuad_isSome p 96 (by omega))
  simp [readBlock, h0, h1, h2, h3]

theorem bulkSecret_length (S : Fin 9 → Nat) (i : Nat) (p : List Nat)
    (a b c d e f g h : Nat) (hp : p.length = i) :
    ∃ r : BulkState, bulkSecret S p i a b c d e f g h = some r ∧ r.p.length = r.i := by
  induction i using Nat.strong_induction_on generalizing p a b c d e f g h with
  | _ i ih =>
    by_cases hgt : 128 < i
    · obtain ⟨w, hw⟩ := Option.isSome_iff_exists.mp (readBlock_isSome p (by omega))
      rw [bulkSecret.eq_def, dif_pos hgt, hw]
      exact ih (i - 128) (by omega) (p.drop 128) _ _ _ _ _ _ _ _ (by simp [hp])
    · rw [bulkSecret.eq_def, dif_neg hgt]
      exact ⟨_, rfl, hp⟩

theorem residual64_length (S : Fin 9 → Nat) (p : List Nat) (i s : Nat)
    (hp : p.length = i) :
    ∃ p2 i2 s2, residual64 S p i s = some (p2, i2, s2) ∧ p2.length = i2 := by
  unfold residual64
  by_cases h64 : 64 < i
  · rw [if_pos h64]
    obtain ⟨⟨x0, y0, x1, y1⟩, hq0⟩ :=
      Option.isSome_iff_exists.mp (readQuad_isSome p 0 (by omega))
    obtain ⟨⟨x2, y2, x3, y3⟩, hq1⟩ :=
      Option.isSome_iff_exists.mp (readQuad_isSome p 32 (by omega))
    simp only [hq0, hq1, Option.some_bind]
    exact ⟨_, _, _, rfl, by simp [hp]⟩
  · rw [if_neg h64]
    exact ⟨_, _, _, rfl, hp⟩

theorem residual32_length (S : Fin 9 → Nat) (p : List Nat) (i s : Nat)
    (hp : p.length = i) :
    ∃ p2 i2 s2, residual32 S p i s = some (p2, i2, s2) ∧ p2.length = i2 := by
  unfold residual32
  by_cases h32 : 32 < i
  · rw [if_pos h32]
    obtain ⟨⟨x0, y0, x1, y1⟩, hq0⟩ :=
      Option.isSome_iff_exists.mp (readQuad_isSome p 0 (by omega))
    simp only [hq0, Option.some_bind]
    exact ⟨_, _, _, rfl, by simp [hp]⟩
  · rw [if_neg h32]
    exact ⟨_, _, _, rfl, hp⟩

theorem residual16_isSome (S : Fin 9 → Nat) (p : List Nat) (i s : Nat)
    (hp : p.length = i) : (residual16 S p i s).isSome := by
  unfold residual16
  by_cases h16 : 16 < i
  · rw [if_pos h16]
    obtain ⟨x, hx⟩ := Option.isSome_iff_exists.mp (read64_isSome p 0 (by omega))
    obtain ⟨y, hy⟩ := Option.isSome_iff_exists.mp (read64_isSome p 8 (by omega))
    simp [hx, hy]
  · rw [if_neg h16]
    simp



theorem longSecret_isSome (S : Fin 9 → Nat) (data : List Nat) (s0 : Nat)
    (h : 16 < data.length) : (longSecret S data s0).isSome := by
  obtain ⟨av, hav⟩ :=
    Option.isSome_iff_exists.mp (read64_isSome data (data.length - 16) (by omega))
  obtain ⟨bv, hbv⟩ :=
    Option.isSome_iff_exists.mp (read64_isSome data (data.length - 8) (by omega))
  simp only [longSecret]
  by_cases hbulk : 128 < data.length
  · obtain ⟨r, hr, hrlen⟩ :=
      bulkSecret_length S data.length data s0 s0 s0 s0 s0 s0 s0 s0 rfl
    rw [if_pos hbulk, hr]
    simp only [Option.bind_eq_bind', Option.some_bind]
    obtain ⟨p2, i2, s2, h64, hl2⟩ := residual64_length S r.p r.i _ hrlen
    rw [h64]
    simp only [Option.bind_eq_bind', Option.some_bind]
    obtain ⟨p3, i3, s3, h32, hl3⟩ := residual32_length S p2 i2 s2 hl2
    rw [h32]
    simp only [Option.bind_eq_bind', Option.some_bind]
    obtain ⟨s4, h16v⟩ :=
      Option.isSome_iff_exists.mp (residual16_isSome S p3 i3 s3 hl3)
    rw [h16v]
    simp only [Option.bind_eq_bind', Option.some_bind]
    rw [hav]
    simp only [Option.bind_eq_bind', Option.some_bind]
    rw [hbv]
    simp
  · rw [if_neg hbulk]
    simp only [Option.pure_def, Option.bind_eq_bind', Option.some_bind]
    obtain ⟨p2, i2, s2, h64, hl2⟩ := residual64_length S data data.length s0 rfl
    rw [h64]
    simp only [Option.bind_eq_bind', Option.some_bind]
    obtain ⟨p3, i3, s3, h32, hl3⟩ := residual32_length S p2 i2 s2 hl2
    rw [h32]
    simp only [Option.bind_eq_bind', Option.some_bind]
    obtain ⟨s4, h16v⟩ :=
      Option.isSome_iff_exists.mp (residual16_isSome S p3 i3 s3 hl3)
    rw [h16v]
    simp only [Option.bind_eq_bind', Option.some_bind]
    rw [hav]
    simp only [Option.bind_eq_bind', Option.some_bind]
    rw [hbv]
    simp

theorem smchash_secret_isSome (data : List Nat) (seed : Nat) (S : Fin 9 → Nat) :
    (smchash_secret data seed S).isSome := by
  by_cases h16 : data.length ≤ 16
  · simp only [smchash_secret]
    rw [if_pos h16]
    by_cases h4 : 4 ≤ data.length
    · by_cases h8 : 8 ≤ data.length
      · obtain ⟨a, ha⟩ := Option.isSome_iff_exists.mp (read64_isSome data 0 (by omega))
        obtain ⟨b, hb⟩ :=
          Option.isSome_iff_exists.mp (read64_isSome data (data.length - 8) (by omega))
        rw [if_pos h4, if_pos h8]
        simp [ha, hb]
      · obtain ⟨a, ha⟩ := Option.isSome_iff_exists.mp (read32_isSome data 0 (by omega))
        obtain ⟨b, hb⟩ :=
          Option.isSome_iff_exists.mp (read32_isSome data (data.length - 4) (by omega))
        rw [if_pos h4, if_neg h8]
        simp [ha, hb]
    · by_cases h1 : 0 < data.length
      · have hm : data.length >>> 1 < data.length := by
          have : data.length >>> 1 = data.length / 2 := Nat.shiftRight_one _
          omega
        have hb0 : (0 : Nat) < data.length := h1
        have hbl : data.length - 1 < data.length := by omega
        rw [if_neg h4, if_pos h1]
        simp [List.getElem?_eq_getElem, hb0, hm, hbl]
      · rw [if_neg h4, if_neg h1]
        simp
  · simp only [smchash_secret]
    rw [if_neg h16]
    exact longSecret_isSome S data _ (by omega)

theorem smchash_seeded_isSome (data : List Nat) (seed : Nat) :
    (smchash_seeded data seed).isSome := by
  by_cases h16 : data.length ≤ 16
  · rw [← secret_builtin_short_eq data seed h16]
    exact smchash_secret_isSome data seed SMC_SECRET
  · simp only [smchash_seeded]
    rw [if_neg h16, longSeeded_eq_longSecret]
    exact longSecret_isSome SMC_SECRET data _ (by omega)

theorem smc_rand_state_iterate (k s : Nat) (hs : s < M) :
    (fun x => (smc_rand x).1)^[k] s = (s + k * SMC_SECRET 0) % M := by
  induction k with
  | zero => simp [Nat.mod_eq_of_lt hs]
  | succ k ih =>
    rw [Function.iterate_succ_apply', ih]
    show ((s + k * SMC_SECRET 0) % M + SMC_SECRET 0) % M = _
    rw [Nat.mod_add_mod]
    congr 1
    ring

/-- Claim C2: for every input with `L > 16` and every seed,
`smchash_seeded` computes exactly the §4.3 long path: seed update with
`mix(seed XOR S[2], S[1])`, bulk loop only while the remaining length is
strictly greater than 128, strict-greater residual thresholds with the
`i > 16` branch not advancing the pointer, and the finaliser reading the
16-byte tail at offsets `L−16` and `L−8` of the original buffer. -/
theorem C2_seeded_long_path_follows_spec (data : List Nat) (seed : Nat)
    (h : 16 < data.length) :
    smchash_seeded data seed = longHashSpec SMC_SECRET data seed := by
  unfold smchash_seeded longHashSpec longSeeded
  rw [if_neg (show ¬data.length ≤ 16 by omega)]
  simp only [bulkSeeded_eq_bulkSecret, bulkSpec_eq_bulkSecret,
    residual64Spec_eq, residual32Spec_eq, residual16Spec_eq]

/-- Witness for C2 at a concrete 130-byte input (which exercises the bulk
loop and the residual branches). -/
theorem C2_witness :
    16 < (List.replicate 130 7 : List Nat).length ∧
    smchash_seeded (List.replicate 130 7) 5 = longHashSpec SMC_SECRET (List.replicate 130 7) 5 :=
  ⟨by simp, C2_seeded_long_path_follows_spec (List.replicate 130 7) 5 (by simp)⟩

/-- Claim C3: for every input with `L ≤ 16` and every seed,
`smchash_seeded` computes exactly the §4.2 short path: seed update
`s XOR mix(s XOR S[0], S[1] XOR L)`, word extraction by the four length
classes, then `a XOR S[1]`, `b XOR s`, `mum`, and the final
`mix(a XOR S[8], b XOR S[1] XOR L)`. -/
theorem C3_seeded_short_path_follows_spec (data : List Nat) (seed : Nat)
    (h : data.length ≤ 16) :
    smchash_seeded data seed = shortHashSpec SMC_SECRET data seed := by
  unfold smchash_seeded shortHashSpec
  rw [if_pos h]
  by_cases h8 : 8 ≤ data.length
  · have h4 : 4 ≤ data.length := by omega
    simp only [if_pos h4, if_pos h8]
  · by_cases h4 : 4 ≤ data.length
    · simp only [if_pos h4, if_neg h8,
        if_pos (show 4 ≤ data.length ∧ data.length < 8 from ⟨h4, by omega⟩)]
    · by_cases h1 : 0 < data.length
      · simp only [if_neg h4, if_pos h1, if_neg h8,
          if_neg (show ¬(4 ≤ data.length ∧ data.length < 8) by omega),
          if_pos (show 1 ≤ data.length ∧ data.length < 4 from ⟨h1, by omega⟩)]
      · simp only [if_neg h4, if_neg h1, if_neg h8,
          if_neg (show ¬(4 ≤ data.length ∧ data.length < 8) by omega),
          if_neg (show ¬(1 ≤ data.length ∧ data.length < 4) by omega)]

/-- Witness for C3 at the 13-byte input "Hello, World!". -/
theorem C3_witness :
    ([72,101,108,108,111,44,32,87,111,114,108,100,33] : List Nat).length ≤ 16 ∧
    smchash_seeded [72,101,108,108,111,44,32,87,111,114,108,100,33] 12345 =
      shortHashSpec SMC_SECRET [72,101,108,108,111,44,32,87,111,114,108,100,33] 12345 :=
  ⟨by decide,
    C3_seeded_short_path_follows_spec [72,101,108,108,111,44,32,87,111,114,108,100,33] 12345
      (by decide)⟩

/-- Claim C4: the published reference vectors hold bit-exactly —
`smchash` of the 13-byte string "Hello, World!" (bytes below) is
`0x25bb0982c5c0de6e`, `smchash_seeded` of the same string with seed 12345
is `0xd26cb494f911af5b`, and `smchash data` is `smchash_seeded data S[0]`
for every input. -/
theorem C4_reference_vectors :
    smchash [72,101,108,108,111,44,32,87,111,114,108,100,33] = some 0x25bb0982c5c0de6e ∧
    smchash_seeded [72,101,108,108,111,44,32,87,111,114,108,100,33] 12345 =
      some 0xd26cb494f911af5b ∧
    ∀ data : List Nat, smchash data = smchash_seeded data (SMC_SECRET 0) :=
  ⟨by rfl, by rfl, fun _ => rfl⟩

/-- Claim C9: hashing the empty byte string is a valid call returning a
defined, nonzero value (its concrete value is `0x76eee9b64c443120`). -/
theorem C9_empty_hash_nonzero :
    smchash [] = some 0x76eee9b64c443120 ∧ (0x76eee9b64c443120 : Nat) ≠ 0 :=
  ⟨by rfl, by decide⟩

/-- Claim C1 (falsified, code bug): `smchash_secret` with the built-in
table is NOT the same function as `smchash_seeded` on inputs longer than
16 bytes, because lib.rs line 304 updates the seed with `secret[0]` where
line 179 of the seeded variant uses `SMC_SECRET[2]`.  At the 17-byte input
`[1..17]` with seed 0 the two variants return different values. -/
theorem C1_secret_builtin_long_divergence :
    smchash_secret [1,2,3,4,5,6,7,8,9,10,11,12,13,14,15,16,17] 0 SMC_SECRET =
      some 0xd0b93534cf181637 ∧
    smchash_seeded [1,2,3,4,5,6,7,8,9,10,11,12,13,14,15,16,17] 0 =
      some 0x5c2f8a64dea09dbe ∧
    smchash_secret [1,2,3,4,5,6,7,8,9,10,11,12,13,14,15,16,17] 0 SMC_SECRET ≠
      smchash_seeded [1,2,3,4,5,6,7,8,9,10,11,12,13,14,15,16,17] 0 :=
  ⟨by rfl, by rfl, by decide⟩

/-- Claim C5: for every input buffer, seed and 9-word secret table, every
byte access performed by `smchash_seeded` and `smchash_secret` lies within
the buffer bounds: in the embedding both functions return `some` on every
input, i.e. the out-of-bounds (`none`) branch is unreachable. -/
theorem C5_no_out_of_bounds (data : List Nat) (seed : Nat) (secret : Fin 9 → Nat) :
    (smchash_seeded data seed).isSome = true ∧
    (smchash_secret data seed secret).isSome = true :=
  ⟨smchash_seeded_isSome data seed, smchash_secret_isSome data seed secret⟩

/-- Claim C6: one call to `smc_rand` replaces the state `s` by
`(s + S[0]) mod 2^64` and returns `mix(s', s' XOR S[1])` where `s'` is the
new state; both components are a pure function of the old state alone. -/
theorem C6_smc_rand_step (s : Nat) :
    smc_rand s = ((s + SMC_SECRET 0) % M,
      mix ((s + SMC_SECRET 0) % M) (((s + SMC_SECRET 0) % M) ^^^ SMC_SECRET 1)) := rfl

/-- Claim C7: the PRNG state sequence has period exactly `2^64`: iterating
the state update of `smc_rand` `2^64` times returns to the start, and no
smaller positive iteration count does (equivalently, the additive order of
`S[0]` modulo `2^64` is `2^64`, since `S[0]` is odd). -/
theorem C7_prng_period (s : Nat) (hs : s < M) :
    (fun x => (smc_rand x).1)^[M] s = s ∧
    ∀ k, 0 < k → k < M → (fun x => (smc_rand x).1)^[k] s ≠ s := by
  constructor
  · rw [smc_rand_state_iterate M s hs, Nat.add_mul_mod_self_left, Nat.mod_eq_of_lt hs]
  · intro k hk0 hkM heq
    rw [smc_rand_state_iterate k s hs] at heq
    have hmod : (s + k * SMC_SECRET 0) % M = (s + 0) % M := by
      rw [Nat.add_zero, Nat.mod_eq_of_lt hs]; exact heq
    have hcancel : k * SMC_SECRET 0 ≡ 0 [MOD M] := Nat.ModEq.add_left_cancel' s hmod
    have hdvd : M ∣ k * SMC_SECRET 0 := (Nat.modEq_zero_iff_dvd).mp hcancel
    have hodd : Nat.Coprime 2 (SMC_SECRET 0) := by decide
    have hcop : Nat.Coprime M (SMC_SECRET 0) := by
      have hM : M = 2 ^ 64 := by norm_num [M]
      rw [hM]
      exact Nat.Coprime.pow_left _ hodd
    have hk : M ∣ k := hcop.dvd_of_dvd_mul_right hdvd
    exact absurd (Nat.le_of_dvd hk0 hk) (by omega)

/-- Witness for C7 at the concrete state 42. -/
theorem C7_witness :
    42 < M ∧
    ((fun x => (smc_rand x).1)^[M] 42 = 42 ∧
      ∀ k, 0 < k → k < M → (fun x => (smc_rand x).1)^[k] 42 ≠ 42) :=
  ⟨by decide, C7_prng_period 42 (by decide)⟩

/-- Claim C10: for every input of length at most 16 and every seed,
`smchash_secret` with the built-in table returns exactly the value of
`smchash_seeded`: on the short path the two variants are the same
computation. -/
theorem C10_short_secret_builtin_eq (data : List Nat) (seed : Nat)
    (h : data.length ≤ 16) :
    smchash_secret data seed SMC_SECRET = smchash_seeded data seed :=
  secret_builtin_short_eq data seed h

/-- Witness for C10 at a concrete 2-byte input. -/
theorem C10_witness :
    ([3, 250] : List Nat).length ≤ 16 ∧
    smchash_secret [3, 250] 9 SMC_SECRET = smchash_seeded [3, 250] 9 :=
  ⟨by decide, C10_short_secret_builtin_eq [3, 250] 9 (by decide)⟩

end SmcHash
